import Mathlib

/-
Shallow embedding of src/decorators/arg_checker.py (class ArgChecker).

The module defines a decorator `enforce_type_hints` that
  (1) reads a function's annotations (`inspect.getfullargspec`),
  (2) rewrites them into a directly comparable form
      (`_make_typings_comparable`), and
  (3) on every call checks positional then keyword arguments against the
      rewritten hints (`_check_positional_args`, `_check_keyword_args`),
      running the wrapped function only when no check raised.

The embedding models the runtime types the spec and the code exercise as a
closed universe `PyType` (int, np.int64, str, float, NoneType, list, dict,
tuple); within this universe `isinstance` is plain membership, since none of
these types is a subclass of another.  Annotation objects are modelled by
`Ann`: a plain class, `typing.Any`, a `typing._GenericAlias`
(List[...], Dict[...], Tuple[...], Union[...]/Optional[...]; members are the
concrete classes `__args__` yields), a plain tuple of classes (the form
`_make_typings_comparable` produces), or an unsupported object of any other
shape.  Exceptions (AssertionError from the asserts, KeyError from
`type_hints[arg_name]`, TypeError from `isinstance` on a non-type,
IndexError from `arg_names[i]`) are modelled as the error type `CheckErr`;
the checkers return `Option CheckErr` (`none` = no exception) and the wrapped
call returns `Except CheckErr α`.
-/

set_option autoImplicit false

namespace ArgChecker

/-- The runtime types exercised by the code and its spec.  `npInt64` is
numpy's fixed-width integer scalar type `np.int64` (not a subclass of `int`
and with no subclass relation to the rest of the universe);
`noneType` is `type(None)`. -/
inductive PyType where
  | int
  | npInt64
  | str
  | float
  | noneType
  | list
  | dict
  | tuple
deriving DecidableEq, Repr

/-- Python runtime values, carried only as far as validation looks at them:
the checker consults a value's runtime type and never its contents, so
`vFloat` keeps the literal as text (no numeric semantics needed) and the
containers keep their element values so that claims about
"regardless of element contents" can quantify over them. -/
inductive PyVal where
  | vInt (n : Int)
  | vNpInt64 (n : Int)
  | vStr (s : String)
  | vFloat (lit : String)
  | vNone
  | vList (elems : List PyVal)
  | vDict (entries : List (PyVal × PyVal))
  | vTuple (elems : List PyVal)

/-- `type(v)` for the modelled universe. -/
def typeOf : PyVal → PyType
  | PyVal.vInt _ => PyType.int
  | PyVal.vNpInt64 _ => PyType.npInt64
  | PyVal.vStr _ => PyType.str
  | PyVal.vFloat _ => PyType.float
  | PyVal.vNone => PyType.noneType
  | PyVal.vList _ => PyType.list
  | PyVal.vDict _ => PyType.dict
  | PyVal.vTuple _ => PyType.tuple

/-- The origin kinds of the `typing._GenericAlias` objects the code can
meet: `List[...]`, `Dict[...]`, `Tuple[...]`, `Union[...]` (and
`Optional[T]`, which Python itself desugars to `Union[T, NoneType]`). -/
inductive Origin where
  | listO
  | dictO
  | tupleO
  | unionO
deriving DecidableEq, Repr

/-- An annotation object as `_make_typings_comparable` can observe it:
a plain class, `typing.Any`, a generic alias with its `__args__` (classes),
a plain tuple of classes, or an object of any other, unsupported shape. -/
inductive Ann where
  | cls (t : PyType)
  | anyA
  | genAlias (origin : Origin) (args : List PyType)
  | tup (args : List PyType)
  | unsupported (tag : String)
deriving DecidableEq, Repr

/-- `get_origin(a)` restricted to the test the code performs,
`get_origin(arg_type) in [list, dict, tuple]`: yields the built-in class for
a container-shaped generic alias and `none` otherwise (plain classes, plain
tuples and unsupported objects have origin `None`; a `Union` alias has
origin `typing.Union`, which is not in the list). -/
def containerOrigin : Ann → Option PyType
  | Ann.genAlias Origin.listO _ => some PyType.list
  | Ann.genAlias Origin.dictO _ => some PyType.dict
  | Ann.genAlias Origin.tupleO _ => some PyType.tuple
  | _ => none

/-- The per-entry body of `_make_typings_comparable` (lines 102-125):
container aliases collapse to their built-in class and `continue`;
a `typing._GenericAlias` is replaced by its `__args__` tuple, widened with
`np.int64` when `int` is a member; then, on the original annotation object,
`int` becomes `(int, np.int64)` and a plain tuple containing `int` gets
`np.int64` appended.  Any other object is left unchanged. -/
def makeComparable1 (a : Ann) : Ann :=
  match containerOrigin a with
  | some t => Ann.cls t
  | none =>
    if a = Ann.cls PyType.int then
      Ann.tup [PyType.int, PyType.npInt64]
    else
      match a with
      | Ann.genAlias _ args =>
        if PyType.int ∈ args then Ann.tup (args ++ [PyType.npInt64])
        else Ann.tup args
      | Ann.tup ts =>
        if PyType.int ∈ ts then Ann.tup (ts ++ [PyType.npInt64])
        else Ann.tup ts
      | other => other

/-- `_make_typings_comparable`: the annotations dict, modelled as an
association list in insertion order, with every value rewritten by
`makeComparable1` (the keys are untouched). -/
def makeTypingsComparable (d : List (String × Ann)) : List (String × Ann) :=
  d.map (fun p => (p.1, makeComparable1 p.2))

/-- `type_hints[arg_name]`: first entry with the given key, `none` = KeyError. -/
def lookupHint (d : List (String × Ann)) (k : String) : Option Ann :=
  match d with
  | [] => none
  | p :: rest => if p.1 = k then some p.2 else lookupHint rest k

/-- The exceptions the wrapper can raise before running the function:
`validationError p t a` is the AssertionError
"arg p is type t; doesn't match a" (lines 166-167 and 200-201),
`keyError p` the KeyError from `type_hints[p]` when `p` has no entry,
`typeError p` the TypeError `isinstance` raises when the accepted-types
object for `p` is neither a class nor a tuple of classes, and
`indexError` the IndexError from `arg_names[i]` when more positional values
than parameter names are supplied. -/
inductive CheckErr where
  | validationError (param : String) (actual : PyType) (accepted : Ann)
  | keyError (param : String)
  | typeError (param : String)
  | indexError
deriving DecidableEq, Repr

/-- The parameter name an exception reports, when it reports one. -/
def errName : CheckErr → Option String
  | CheckErr.validationError p _ _ => some p
  | CheckErr.keyError p => some p
  | CheckErr.typeError p => some p
  | CheckErr.indexError => none

/-- `isinstance(v, a)` on the modelled universe, where `a` is an
accepted-types object: membership for a class or a tuple of classes
(no two distinct types of the universe are in a subclass relation), and
`none` (TypeError) for `typing.Any`, a generic alias, or an unsupported
object. -/
def isinstanceB (t : PyType) : Ann → Option Bool
  | Ann.cls c => some (t = c)
  | Ann.tup ts => some (t ∈ ts)
  | _ => none

/-- `_check_positional_args` (lines 156-167): walk the positional values in
order against the parameter names; a name equal to the literal "self" is
skipped, an accepted-types entry equal to `typing.Any` is skipped, and
otherwise the value's runtime type must satisfy `isinstance`; the first
exception (AssertionError, KeyError, TypeError or IndexError) aborts the
walk. -/
def checkPositionalArgs : List PyVal → List String → List (String × Ann) → Option CheckErr
  | [], _, _ => none
  | _ :: _, [], _ => some CheckErr.indexError
  | arg :: args, name :: names, hints =>
    if name = "self" then
      checkPositionalArgs args names hints
    else
      match lookupHint hints name with
      | none => some (CheckErr.keyError name)
      | some accepted =>
        if accepted = Ann.anyA then
          checkPositionalArgs args names hints
        else
          match isinstanceB (typeOf arg) accepted with
          | none => some (CheckErr.typeError name)
          | some true => checkPositionalArgs args names hints
          | some false => some (CheckErr.validationError name (typeOf arg) accepted)

/-- `_check_keyword_args` (lines 193-201): walk the keyword dict in
insertion order; each name is looked up in the hints (KeyError when absent),
`typing.Any` entries are skipped, and otherwise the value's runtime type
must satisfy `isinstance`; the first exception aborts the walk.  There is no
"self" skip here. -/
def checkKeywordArgs : List (String × PyVal) → List (String × Ann) → Option CheckErr
  | [], _ => none
  | (name, v) :: rest, hints =>
    match lookupHint hints name with
    | none => some (CheckErr.keyError name)
    | some accepted =>
      if accepted = Ann.anyA then
        checkKeywordArgs rest hints
      else
        match isinstanceB (typeOf v) accepted with
        | none => some (CheckErr.typeError name)
        | some true => checkKeywordArgs rest hints
        | some false => some (CheckErr.validationError name (typeOf v) accepted)

/-- What `inspect.getfullargspec` supplies to the decorator: the ordered
parameter names (`full_argspec.args`) and the raw annotations dict
(`full_argspec.annotations`) — a parameter without a type hint has no entry
in the latter. -/
structure FuncMeta where
  argNames : List String
  rawHints : List (String × Ann)

/-- The validation part of `func_w_arg_dtypes_validated` (lines 51-54) with
the decoration-time rewrite of line 49 inlined: positional check first, then
keyword check, the first exception propagating. -/
def validatedCall (meta : FuncMeta) (args : List PyVal)
    (kwargs : List (String × PyVal)) : Except CheckErr Unit :=
  let hints := makeTypingsComparable meta.rawHints
  match checkPositionalArgs args meta.argNames hints with
  | some e => Except.error e
  | none =>
    match checkKeywordArgs kwargs hints with
    | some e => Except.error e
    | none => Except.ok ()

/-- A full call through the decorated function (lines 51-56): the wrapped
function `func` runs, and its result is returned, only when both checks
passed. -/
def callWrapped (meta : FuncMeta)
    (func : List PyVal → List (String × PyVal) → PyVal)
    (args : List PyVal) (kwargs : List (String × PyVal)) : Except CheckErr PyVal :=
  match validatedCall meta args kwargs with
  | Except.error e => Except.error e
  | Except.ok _ => Except.ok (func args kwargs)

end ArgChecker

open ArgChecker

/-- Helper: a rewritten annotation equal to a tuple of classes when the raw
one was a union alias: the flattened member list, widened with np.int64
when int is a member. -/
theorem makeComparable1_union (ms : List PyType) :
    makeComparable1 (Ann.genAlias Origin.unionO ms) =
      (if PyType.int ∈ ms then Ann.tup (ms ++ [PyType.npInt64]) else Ann.tup ms) := by
  simp [makeComparable1, containerOrigin]

/-- Helper: the positional checker is unchanged by extra trailing arguments
once a prefix of matching length has already failed. -/
theorem checkPositionalArgs_append_of_fail (xs ys : List PyVal) (ns ms : List String)
    (hints : List (String × Ann)) (e : CheckErr)
    (hlen : xs.length = ns.length)
    (hfail : checkPositionalArgs xs ns hints = some e) :
    checkPositionalArgs (xs ++ ys) (ns ++ ms) hints = some e := by
  induction xs generalizing ns with
  | nil => simp [checkPositionalArgs] at hfail
  | cons x xs ih =>
    cases ns with
    | nil => simp at hlen
    | cons n ns =>
      simp only [List.length_cons, Nat.succ.injEq] at hlen
      simp only [List.cons_append]
      rw [checkPositionalArgs] at hfail ⊢
      by_cases hn : n = "self"
      · simp only [hn, if_pos rfl] at hfail ⊢
        exact ih ns hlen hfail
      · simp only [if_neg hn] at hfail ⊢
        cases hl : lookupHint hints n with
        | none => simp only [hl] at hfail ⊢; exact hfail
        | some acc =>
          simp only [hl] at hfail ⊢
          by_cases ha : acc = Ann.anyA
          · simp only [ha, if_pos rfl] at hfail ⊢
            exact ih ns hlen hfail
          · simp only [if_neg ha] at hfail ⊢
            cases hi : isinstanceB (typeOf x) acc with
            | none => simp only [hi] at hfail ⊢; exact hfail
            | some b =>
              cases b with
              | true => simp only [hi] at hfail ⊢; exact ih ns hlen hfail
              | false => simp only [hi] at hfail ⊢; exact hfail

/-- Helper: the keyword checker is unchanged by extra trailing entries once
a prefix has already failed. -/
theorem checkKeywordArgs_append_of_fail (xs ys : List (String × PyVal))
    (hints : List (String × Ann)) (e : CheckErr)
    (hfail : checkKeywordArgs xs hints = some e) :
    checkKeywordArgs (xs ++ ys) hints = some e := by
  induction xs with
  | nil => simp [checkKeywordArgs] at hfail
  | cons x xs ih =>
    obtain ⟨n, v⟩ := x
    simp only [List.cons_append]
    rw [checkKeywordArgs] at hfail ⊢
    cases hl : lookupHint hints n with
    | none => simp only [hl] at hfail ⊢; exact hfail
    | some acc =>
      simp only [hl] at hfail ⊢
      by_cases ha : acc = Ann.anyA
      · simp only [ha, if_pos rfl] at hfail ⊢
        exact ih hfail
      · simp only [if_neg ha] at hfail ⊢
        cases hi : isinstanceB (typeOf v) acc with
        | none => simp only [hi] at hfail ⊢; exact hfail
        | some b =>
          cases b with
          | true => simp only [hi] at hfail ⊢; exact ih hfail
          | false => simp only [hi] at hfail ⊢; exact hfail

/-- Helper: any exception the positional checker reports with a parameter
name names a parameter other than "self" (arguments whose name is "self"
are skipped before any check can raise). -/
theorem checkPositionalArgs_errName_ne_self (args : List PyVal) (names : List String)
    (hints : List (String × Ann)) (e : CheckErr) (p : String)
    (hfail : checkPositionalArgs args names hints = some e)
    (hname : errName e = some p) : p ≠ "self" := by
  induction args generalizing names with
  | nil => simp [checkPositionalArgs] at hfail
  | cons x xs ih =>
    cases names with
    | nil =>
      simp only [checkPositionalArgs, Option.some.injEq] at hfail
      rw [← hfail] at hname
      simp [errName] at hname
    | cons n ns =>
      rw [checkPositionalArgs] at hfail
      by_cases hn : n = "self"
      · simp only [hn, if_pos rfl] at hfail
        exact ih ns hfail
      · simp only [if_neg hn] at hfail
        cases hl : lookupHint hints n with
        | none =>
          simp only [hl, Option.some.injEq] at hfail
          rw [← hfail] at hname
          simp only [errName, Option.some.injEq] at hname
          rw [hname] at hn
          exact hn
        | some acc =>
          simp only [hl] at hfail
          by_cases ha : acc = Ann.anyA
          · simp only [ha, if_pos rfl] at hfail
            exact ih ns hfail
          · simp only [if_neg ha] at hfail
            cases hi : isinstanceB (typeOf x) acc with
            | none =>
              simp only [hi, Option.some.injEq] at hfail
              rw [← hfail] at hname
              simp only [errName, Option.some.injEq] at hname
              rw [hname] at hn
              exact hn
            | some b =>
              cases b with
              | true =>
                simp only [hi] at hfail
                exact ih ns hfail
              | false =>
                simp only [hi, Option.some.injEq] at hfail
                rw [← hfail] at hname
                simp only [errName, Option.some.injEq] at hname
                rw [hname] at hn
                exact hn

/-- Helper: any exception the keyword checker reports names one of the
keyword names actually supplied. -/
theorem checkKeywordArgs_errName_mem (kwargs : List (String × PyVal))
    (hints : List (String × Ann)) (e : CheckErr) (p : String)
    (hfail : checkKeywordArgs kwargs hints = some e)
    (hname : errName e = some p) : p ∈ kwargs.map Prod.fst := by
  induction kwargs with
  | nil => simp [checkKeywordArgs] at hfail
  | cons x xs ih =>
    obtain ⟨n, v⟩ := x
    rw [checkKeywordArgs] at hfail
    cases hl : lookupHint hints n with
    | none =>
      simp only [hl, Option.some.injEq] at hfail
      rw [← hfail] at hname
      simp only [errName, Option.some.injEq] at hname
      simp [← hname]
    | some acc =>
      simp only [hl] at hfail
      by_cases ha : acc = Ann.anyA
      · simp only [ha, if_pos rfl] at hfail
        simp only [List.map_cons, List.mem_cons]
        exact Or.inr (ih hfail)
      · simp only [if_neg ha] at hfail
        cases hi : isinstanceB (typeOf v) acc with
        | none =>
          simp only [hi, Option.some.injEq] at hfail
          rw [← hfail] at hname
          simp only [errName, Option.some.injEq] at hname
          simp [← hname]
        | some b =>
          cases b with
          | true =>
            simp only [hi] at hfail
            simp only [List.map_cons, List.mem_cons]
            exact Or.inr (ih hfail)
          | false =>
            simp only [hi, Option.some.injEq] at hfail
            rw [← hfail] at hname
            simp only [errName, Option.some.injEq] at hname
            simp [← hname]

/-- Claim C1, counterexample: a parameter absent from the canonical mapping
is not skipped — supplying a value for it, as a keyword or positionally,
makes the call fail with a KeyError from the `type_hints[arg_name]` lookup
rather than proceed to the wrapped function. -/
theorem C1_counterexample :
    validatedCall ⟨["e"], []⟩ [] [("e", PyVal.vInt 1)] =
        Except.error (CheckErr.keyError "e") ∧
    validatedCall ⟨["e"], []⟩ [PyVal.vInt 1] [] =
        Except.error (CheckErr.keyError "e") := ⟨rfl, rfl⟩

/-- Claim C1, amended: a parameter with no entry in the canonical mapping is
not skipped; supplying a value for it (positionally under a name other than
"self", or as a keyword) makes the checker raise a KeyError naming that
parameter — an error, though never the AssertionError validation failure. -/
theorem C1_undeclared_is_keyerror (name : String) (v : PyVal) (args : List PyVal)
    (names : List String) (hints : List (String × Ann)) (rest : List (String × PyVal))
    (hself : name ≠ "self") (hund : lookupHint hints name = none) :
    checkPositionalArgs (v :: args) (name :: names) hints =
        some (CheckErr.keyError name) ∧
    checkKeywordArgs ((name, v) :: rest) hints = some (CheckErr.keyError name) := by
  constructor
  · rw [checkPositionalArgs]
    simp [hself, hund]
  · rw [checkKeywordArgs]
    simp [hund]

/-- Claim C1, witness for the amended theorem at a concrete undeclared
parameter "e". -/
theorem C1_undeclared_is_keyerror_witness :
    checkPositionalArgs [PyVal.vInt 1] ["e"] [] = some (CheckErr.keyError "e") ∧
    checkKeywordArgs [("e", PyVal.vInt 1)] [] = some (CheckErr.keyError "e") :=
  C1_undeclared_is_keyerror "e" (PyVal.vInt 1) [] [] [] [] (by decide) rfl

/-- Claim C2: a parameter declared with the single concrete type int accepts
exactly the values of runtime type int or np.int64; any other value fails
with the AssertionError naming the parameter, the actual runtime type, and
the accepted tuple (int, np.int64). -/
theorem C2_concrete_int_exact (name : String) (v : PyVal)
    (func : List PyVal → List (String × PyVal) → PyVal)
    (h : name ≠ "self") :
    (callWrapped ⟨[name], [(name, Ann.cls PyType.int)]⟩ func [v] [] =
        Except.ok (func [v] []) ↔
      typeOf v = PyType.int ∨ typeOf v = PyType.npInt64) ∧
    (¬(typeOf v = PyType.int ∨ typeOf v = PyType.npInt64) →
      callWrapped ⟨[name], [(name, Ann.cls PyType.int)]⟩ func [v] [] =
        Except.error (CheckErr.validationError name (typeOf v)
          (Ann.tup [PyType.int, PyType.npInt64]))) := by
  constructor
  · cases v <;>
      simp [callWrapped, validatedCall, makeTypingsComparable, makeComparable1,
        containerOrigin, checkPositionalArgs, checkKeywordArgs, lookupHint,
        isinstanceB, typeOf, h]
  · intro hv
    cases v <;>
      simp_all [callWrapped, validatedCall, makeTypingsComparable, makeComparable1,
        containerOrigin, checkPositionalArgs, checkKeywordArgs, lookupHint,
        isinstanceB, typeOf, h]

/-- Claim C2, witness: a parameter "a" declared int, called with the string
"x", yields the AssertionError carrying "a", str, and (int, np.int64). -/
theorem C2_concrete_int_exact_witness :
    (callWrapped ⟨["a"], [("a", Ann.cls PyType.int)]⟩
        (fun (_ : List PyVal) (_ : List (String × PyVal)) => PyVal.vNone) [PyVal.vStr "x"] [] =
        Except.ok ((fun (_ : List PyVal) (_ : List (String × PyVal)) => PyVal.vNone) [PyVal.vStr "x"] []) ↔
      typeOf (PyVal.vStr "x") = PyType.int ∨
        typeOf (PyVal.vStr "x") = PyType.npInt64) ∧
    (¬(typeOf (PyVal.vStr "x") = PyType.int ∨
        typeOf (PyVal.vStr "x") = PyType.npInt64) →
      callWrapped ⟨["a"], [("a", Ann.cls PyType.int)]⟩
          (fun (_ : List PyVal) (_ : List (String × PyVal)) => PyVal.vNone) [PyVal.vStr "x"] [] =
        Except.error (CheckErr.validationError "a" (typeOf (PyVal.vStr "x"))
          (Ann.tup [PyType.int, PyType.npInt64]))) :=
  C2_concrete_int_exact "a" (PyVal.vStr "x") (fun (_ : List PyVal) (_ : List (String × PyVal)) => PyVal.vNone) (by decide)

/-- Claim C3, counterexample: normalization is not idempotent on the
canonical form — rewriting the already-rewritten hint for a parameter
declared int appends a duplicate np.int64 entry. -/
theorem C3_counterexample :
    makeTypingsComparable (makeTypingsComparable [("a", Ann.cls PyType.int)]) ≠
      makeTypingsComparable [("a", Ann.cls PyType.int)] ∧
    makeTypingsComparable (makeTypingsComparable [("a", Ann.cls PyType.int)]) =
      [("a", Ann.tup [PyType.int, PyType.npInt64, PyType.npInt64])] :=
  ⟨by decide, rfl⟩

/-- Claim C3, amended: re-applying the per-entry rewrite either leaves the
canonical form unchanged, or — exactly when the first rewrite produced a
tuple containing int (which then already contains np.int64) — appends one
duplicate np.int64 entry; in every case the membership semantics
(`isinstance` against the rewritten hint) is unchanged, so validation
outcomes are idempotent even though the canonical form is not. -/
theorem C3_renormalize_semantics (a : Ann) (t : PyType) :
    isinstanceB t (makeComparable1 (makeComparable1 a)) =
      isinstanceB t (makeComparable1 a) ∧
    (makeComparable1 (makeComparable1 a) = makeComparable1 a ∨
      ∃ ts, makeComparable1 a = Ann.tup ts ∧ PyType.int ∈ ts ∧
        PyType.npInt64 ∈ ts ∧
        makeComparable1 (makeComparable1 a) = Ann.tup (ts ++ [PyType.npInt64])) := by
  have h2 : makeComparable1 (makeComparable1 a) = makeComparable1 a ∨
      ∃ ts, makeComparable1 a = Ann.tup ts ∧ PyType.int ∈ ts ∧
        PyType.npInt64 ∈ ts ∧
        makeComparable1 (makeComparable1 a) = Ann.tup (ts ++ [PyType.npInt64]) := by
    cases a with
    | cls t' =>
      by_cases hc : t' = PyType.int
      · subst hc
        exact Or.inr ⟨[PyType.int, PyType.npInt64], rfl, by decide, by decide, rfl⟩
      · left
        have h1 : makeComparable1 (Ann.cls t') = Ann.cls t' := by
          simp [makeComparable1, containerOrigin, hc]
        rw [h1, h1]
    | anyA => exact Or.inl rfl
    | genAlias o args =>
      cases o with
      | listO => exact Or.inl rfl
      | dictO => exact Or.inl rfl
      | tupleO => exact Or.inl rfl
      | unionO =>
        by_cases hi : PyType.int ∈ args
        · have h1 : makeComparable1 (Ann.genAlias Origin.unionO args) =
              Ann.tup (args ++ [PyType.npInt64]) := by
            simp [makeComparable1, containerOrigin, hi]
          refine Or.inr ⟨args ++ [PyType.npInt64], h1, by simp [hi], by simp, ?_⟩
          rw [h1]
          simp [makeComparable1, containerOrigin, hi]
        · have h1 : makeComparable1 (Ann.genAlias Origin.unionO args) =
              Ann.tup args := by
            simp [makeComparable1, containerOrigin, hi]
          left
          rw [h1]
          simp [makeComparable1, containerOrigin, hi, h1]
    | tup ts =>
      by_cases hi : PyType.int ∈ ts
      · have h1 : makeComparable1 (Ann.tup ts) =
            Ann.tup (ts ++ [PyType.npInt64]) := by
          simp [makeComparable1, containerOrigin, hi]
        refine Or.inr ⟨ts ++ [PyType.npInt64], h1, by simp [hi], by simp, ?_⟩
        rw [h1]
        simp [makeComparable1, containerOrigin, hi]
      · have h1 : makeComparable1 (Ann.tup ts) = Ann.tup ts := by
          simp [makeComparable1, containerOrigin, hi]
        left
        rw [h1, h1]
    | unsupported tag => exact Or.inl rfl
  refine ⟨?_, h2⟩
  rcases h2 with heq | ⟨ts, hts, hint, hn64, hdup⟩
  · rw [heq]
  · rw [hdup, hts]
    simp only [isinstanceB, Option.some.injEq, decide_eq_decide, List.mem_append,
      List.mem_singleton]
    constructor
    · rintro (h | h)
      · exact h
      · rw [h]
        exact hn64
    · intro h
      exact Or.inl h

/-- Helper: a call of a single-parameter function through the wrapper
reduces to the isinstance test of the value's runtime type against the
rewritten hint, provided the parameter is not named "self" and the
rewritten hint is not typing.Any. -/
theorem validatedCall_single (name : String) (a : Ann) (v : PyVal)
    (h : name ≠ "self") (hany : makeComparable1 a ≠ Ann.anyA) :
    validatedCall ⟨[name], [(name, a)]⟩ [v] [] =
      (match isinstanceB (typeOf v) (makeComparable1 a) with
       | none => Except.error (CheckErr.typeError name)
       | some true => Except.ok ()
       | some false =>
         Except.error (CheckErr.validationError name (typeOf v)
           (makeComparable1 a))) := by
  cases hins : isinstanceB (typeOf v) (makeComparable1 a) with
  | none =>
    simp [validatedCall, makeTypingsComparable, checkPositionalArgs,
      checkKeywordArgs, lookupHint, h, hany, hins]
  | some b =>
    cases b <;>
      simp [validatedCall, makeTypingsComparable, checkPositionalArgs,
        checkKeywordArgs, lookupHint, h, hany, hins]

/-- Helper: the wrapper returns the wrapped function's result exactly when
validation succeeded, and propagates the validation exception otherwise. -/
theorem callWrapped_ok_iff (meta : FuncMeta)
    (func : List PyVal → List (String × PyVal) → PyVal)
    (args : List PyVal) (kwargs : List (String × PyVal)) :
    (callWrapped meta func args kwargs = Except.ok (func args kwargs) ↔
      validatedCall meta args kwargs = Except.ok ()) ∧
    (∀ e : CheckErr, callWrapped meta func args kwargs = Except.error e ↔
      validatedCall meta args kwargs = Except.error e) := by
  cases hv : validatedCall meta args kwargs with
  | error e => simp [callWrapped, hv]
  | ok u =>
    cases u
    simp [callWrapped, hv]

/-- Claim C4: a parameter declared as a union (or optional, which Python
itself presents as a union with NoneType among the members) of concrete
types accepts exactly the values whose runtime type is one of the members,
widened with np.int64 when int is a member; any other value fails with the
AssertionError naming the parameter, the actual runtime type, and the
flattened (and, when int is a member, widened) accepted tuple. -/
theorem C4_union_optional_exact (name : String) (ms : List PyType) (v : PyVal)
    (func : List PyVal → List (String × PyVal) → PyVal)
    (h : name ≠ "self") :
    (callWrapped ⟨[name], [(name, Ann.genAlias Origin.unionO ms)]⟩ func [v] [] =
        Except.ok (func [v] []) ↔
      typeOf v ∈ ms ∨ (PyType.int ∈ ms ∧ typeOf v = PyType.npInt64)) ∧
    (¬(typeOf v ∈ ms ∨ (PyType.int ∈ ms ∧ typeOf v = PyType.npInt64)) →
      callWrapped ⟨[name], [(name, Ann.genAlias Origin.unionO ms)]⟩ func [v] [] =
        Except.error (CheckErr.validationError name (typeOf v)
          (if PyType.int ∈ ms then Ann.tup (ms ++ [PyType.npInt64])
           else Ann.tup ms))) := by
  have hany : makeComparable1 (Ann.genAlias Origin.unionO ms) ≠ Ann.anyA := by
    rw [makeComparable1_union]
    by_cases hi : PyType.int ∈ ms <;> simp [hi]
  have hcall := validatedCall_single name (Ann.genAlias Origin.unionO ms) v h hany
  rw [makeComparable1_union] at hcall
  obtain ⟨hok, herr⟩ :=
    callWrapped_ok_iff ⟨[name], [(name, Ann.genAlias Origin.unionO ms)]⟩ func [v] []
  by_cases hi : PyType.int ∈ ms
  · rw [if_pos hi] at hcall
    have hiff : (typeOf v ∈ ms ++ [PyType.npInt64]) ↔
        (typeOf v ∈ ms ∨ (PyType.int ∈ ms ∧ typeOf v = PyType.npInt64)) := by
      simp [List.mem_append, hi]
    by_cases hv : typeOf v ∈ ms ++ [PyType.npInt64]
    · have hval : validatedCall ⟨[name], [(name, Ann.genAlias Origin.unionO ms)]⟩
          [v] [] = Except.ok () := by
        rw [hcall]
        simp [isinstanceB, hv]
      constructor
      · rw [hok, hval]
        simp [← hiff, hv]
      · intro hcontra
        exact absurd (hiff.mp hv) hcontra
    · have hval : validatedCall ⟨[name], [(name, Ann.genAlias Origin.unionO ms)]⟩
          [v] [] = Except.error (CheckErr.validationError name (typeOf v)
            (Ann.tup (ms ++ [PyType.npInt64]))) := by
        rw [hcall]
        simp [isinstanceB, hv]
      constructor
      · rw [hok, hval]
        simp [← hiff, hv]
      · intro _
        rw [if_pos hi]
        exact (herr _).mpr hval
  · rw [if_neg hi] at hcall
    have hiff : (typeOf v ∈ ms) ↔
        (typeOf v ∈ ms ∨ (PyType.int ∈ ms ∧ typeOf v = PyType.npInt64)) := by
      simp [hi]
    by_cases hv : typeOf v ∈ ms
    · have hval : validatedCall ⟨[name], [(name, Ann.genAlias Origin.unionO ms)]⟩
          [v] [] = Except.ok () := by
        rw [hcall]
        simp [isinstanceB, hv]
      constructor
      · rw [hok, hval]
        simp [← hiff, hv]
      · intro hcontra
        exact absurd (hiff.mp hv) hcontra
    · have hval : validatedCall ⟨[name], [(name, Ann.genAlias Origin.unionO ms)]⟩
          [v] [] = Except.error (CheckErr.validationError name (typeOf v)
            (Ann.tup ms)) := by
        rw [hcall]
        simp [isinstanceB, hv]
      constructor
      · rw [hok, hval]
        simp [hv, hi]
      · intro _
        rw [if_neg hi]
        exact (herr _).mpr hval

/-- Claim C4, witness: parameter "b" declared Optional[str]
(= Union[str, NoneType]) called with None — the acceptance condition holds
and the call returns the wrapped function's result. -/
theorem C4_union_optional_exact_witness :
    ((callWrapped ⟨["b"], [("b", Ann.genAlias Origin.unionO
          [PyType.str, PyType.noneType])]⟩
        (fun (_ : List PyVal) (_ : List (String × PyVal)) => PyVal.vNone)
        [PyVal.vNone] [] =
        Except.ok ((fun (_ : List PyVal) (_ : List (String × PyVal)) =>
          PyVal.vNone) [PyVal.vNone] []) ↔
      typeOf PyVal.vNone ∈ [PyType.str, PyType.noneType] ∨
        (PyType.int ∈ [PyType.str, PyType.noneType] ∧
          typeOf PyVal.vNone = PyType.npInt64)) ∧
    (¬(typeOf PyVal.vNone ∈ [PyType.str, PyType.noneType] ∨
        (PyType.int ∈ [PyType.str, PyType.noneType] ∧
          typeOf PyVal.vNone = PyType.npInt64)) →
      callWrapped ⟨["b"], [("b", Ann.genAlias Origin.unionO
          [PyType.str, PyType.noneType])]⟩
        (fun (_ : List PyVal) (_ : List (String × PyVal)) => PyVal.vNone)
        [PyVal.vNone] [] =
        Except.error (CheckErr.validationError "b" (typeOf PyVal.vNone)
          (if PyType.int ∈ [PyType.str, PyType.noneType] then
            Ann.tup ([PyType.str, PyType.noneType] ++ [PyType.npInt64])
           else Ann.tup [PyType.str, PyType.noneType])))) :=
  C4_union_optional_exact "b" [PyType.str, PyType.noneType] PyVal.vNone
    (fun (_ : List PyVal) (_ : List (String × PyVal)) => PyVal.vNone) (by decide)

/-- Claim C5, counterexample: a type specification of unsupported shape does
not fail normalization at decoration time — `_make_typings_comparable`
returns it unchanged — and the failure instead happens mid-call, as the
TypeError `isinstance` raises when the supplied value is checked against the
non-type object. -/
theorem C5_counterexample :
    makeTypingsComparable [("a", Ann.unsupported "object()")] =
        [("a", Ann.unsupported "object()")] ∧
    callWrapped ⟨["a"], [("a", Ann.unsupported "object()")]⟩
        (fun (_ : List PyVal) (_ : List (String × PyVal)) => PyVal.vNone)
        [PyVal.vInt 1] [] =
      Except.error (CheckErr.typeError "a") := ⟨rfl, rfl⟩

/-- Claim C5, amended: there is no decoration-time configuration failure —
normalization passes a specification of unsupported shape through unchanged,
and every call that supplies a checked value for such a parameter fails
mid-call with the TypeError from `isinstance`. -/
theorem C5_unsupported_fails_mid_call (tag name : String) (v : PyVal)
    (func : List PyVal → List (String × PyVal) → PyVal)
    (h : name ≠ "self") :
    makeComparable1 (Ann.unsupported tag) = Ann.unsupported tag ∧
    callWrapped ⟨[name], [(name, Ann.unsupported tag)]⟩ func [v] [] =
      Except.error (CheckErr.typeError name) := by
  refine ⟨rfl, ?_⟩
  have hany : makeComparable1 (Ann.unsupported tag) ≠ Ann.anyA := by
    intro hcontra
    exact Ann.noConfusion hcontra
  have hcall := validatedCall_single name (Ann.unsupported tag) v h hany
  obtain ⟨hok, herr⟩ :=
    callWrapped_ok_iff ⟨[name], [(name, Ann.unsupported tag)]⟩ func [v] []
  refine (herr _).mpr ?_
  rw [hcall]
  rfl

/-- Claim C5, witness for the amended theorem at the concrete unsupported
specification tagged "object()". -/
theorem C5_unsupported_fails_mid_call_witness :
    makeComparable1 (Ann.unsupported "object()") = Ann.unsupported "object()" ∧
    callWrapped ⟨["x"], [("x", Ann.unsupported "object()")]⟩
        (fun (_ : List PyVal) (_ : List (String × PyVal)) => PyVal.vNone)
        [PyVal.vStr "s"] [] =
      Except.error (CheckErr.typeError "x") :=
  C5_unsupported_fails_mid_call "object()" "x" (PyVal.vStr "s")
    (fun (_ : List PyVal) (_ : List (String × PyVal)) => PyVal.vNone) (by decide)

/-- Claim C6: a container-shaped declaration (List[...], Dict[...],
Tuple[...]) rewrites to the single built-in class for that shape with no
widening, so a value is accepted exactly when its outer runtime type is that
class — whatever its element contents and whatever the declared element
types — and otherwise fails with the AssertionError naming that class as the
accepted object. -/
theorem C6_container_collapse (name : String) (o : Origin)
    (eltArgs : List PyType) (ct : PyType) (v : PyVal)
    (func : List PyVal → List (String × PyVal) → PyVal)
    (hself : name ≠ "self")
    (hct : containerOrigin (Ann.genAlias o eltArgs) = some ct) :
    makeComparable1 (Ann.genAlias o eltArgs) = Ann.cls ct ∧
    (callWrapped ⟨[name], [(name, Ann.genAlias o eltArgs)]⟩ func [v] [] =
        Except.ok (func [v] []) ↔ typeOf v = ct) ∧
    (typeOf v ≠ ct →
      callWrapped ⟨[name], [(name, Ann.genAlias o eltArgs)]⟩ func [v] [] =
        Except.error (CheckErr.validationError name (typeOf v) (Ann.cls ct))) := by
  have hmc : makeComparable1 (Ann.genAlias o eltArgs) = Ann.cls ct := by
    unfold makeComparable1
    rw [hct]
  have hany : makeComparable1 (Ann.genAlias o eltArgs) ≠ Ann.anyA := by
    rw [hmc]
    intro hcontra
    exact Ann.noConfusion hcontra
  have hcall := validatedCall_single name (Ann.genAlias o eltArgs) v hself hany
  rw [hmc] at hcall
  obtain ⟨hok, herr⟩ :=
    callWrapped_ok_iff ⟨[name], [(name, Ann.genAlias o eltArgs)]⟩ func [v] []
  refine ⟨hmc, ?_, ?_⟩
  · rw [hok, hcall]
    by_cases hv : typeOf v = ct <;> simp [isinstanceB, hv]
  · intro hv
    refine (herr _).mpr ?_
    rw [hcall]
    simp [isinstanceB, hv]

/-- Claim C6, witness: parameter "xs" declared List[int], called with a list
whose elements are strings — the outer type matches, so the call succeeds
despite the element contents. -/
theorem C6_container_collapse_witness :
    makeComparable1 (Ann.genAlias Origin.listO [PyType.int]) =
        Ann.cls PyType.list ∧
    (callWrapped ⟨["xs"], [("xs", Ann.genAlias Origin.listO [PyType.int])]⟩
        (fun (_ : List PyVal) (_ : List (String × PyVal)) => PyVal.vNone)
        [PyVal.vList [PyVal.vStr "a"]] [] =
        Except.ok ((fun (_ : List PyVal) (_ : List (String × PyVal)) =>
          PyVal.vNone) [PyVal.vList [PyVal.vStr "a"]] []) ↔
      typeOf (PyVal.vList [PyVal.vStr "a"]) = PyType.list) ∧
    (typeOf (PyVal.vList [PyVal.vStr "a"]) ≠ PyType.list →
      callWrapped ⟨["xs"], [("xs", Ann.genAlias Origin.listO [PyType.int])]⟩
        (fun (_ : List PyVal) (_ : List (String × PyVal)) => PyVal.vNone)
        [PyVal.vList [PyVal.vStr "a"]] [] =
        Except.error (CheckErr.validationError "xs"
          (typeOf (PyVal.vList [PyVal.vStr "a"])) (Ann.cls PyType.list))) :=
  C6_container_collapse "xs" Origin.listO [PyType.int] PyType.list
    (PyVal.vList [PyVal.vStr "a"])
    (fun (_ : List PyVal) (_ : List (String × PyVal)) => PyVal.vNone)
    (by decide) rfl

/-- Claim C7: a validation exception always prevents the wrapped function
from executing (the wrapper propagates the exception instead of producing a
result); the positional walk runs first and its exception preempts the
keyword walk; and each walk stops at the first failing parameter — once a
prefix fails, arguments after it are never examined. -/
theorem C7_fail_fast_order :
    (∀ (meta : FuncMeta) (func : List PyVal → List (String × PyVal) → PyVal)
        (args : List PyVal) (kwargs : List (String × PyVal)) (e : CheckErr),
        validatedCall meta args kwargs = Except.error e →
        callWrapped meta func args kwargs = Except.error e) ∧
    (∀ (meta : FuncMeta) (args : List PyVal) (kwargs : List (String × PyVal))
        (e : CheckErr),
        checkPositionalArgs args meta.argNames
            (makeTypingsComparable meta.rawHints) = some e →
        validatedCall meta args kwargs = Except.error e) ∧
    (∀ (meta : FuncMeta) (args : List PyVal) (kwargs : List (String × PyVal))
        (e : CheckErr),
        checkPositionalArgs args meta.argNames
            (makeTypingsComparable meta.rawHints) = none →
        checkKeywordArgs kwargs (makeTypingsComparable meta.rawHints) = some e →
        validatedCall meta args kwargs = Except.error e) ∧
    (∀ (xs ys : List PyVal) (ns ms : List String)
        (hints : List (String × Ann)) (e : CheckErr),
        xs.length = ns.length → checkPositionalArgs xs ns hints = some e →
        checkPositionalArgs (xs ++ ys) (ns ++ ms) hints = some e) ∧
    (∀ (xs ys : List (String × PyVal)) (hints : List (String × Ann))
        (e : CheckErr),
        checkKeywordArgs xs hints = some e →
        checkKeywordArgs (xs ++ ys) hints = some e) := by
  refine ⟨?_, ?_, ?_, checkPositionalArgs_append_of_fail,
    checkKeywordArgs_append_of_fail⟩
  · intro meta func args kwargs e hv
    simp [callWrapped, hv]
  · intro meta args kwargs e hp
    simp [validatedCall, hp]
  · intro meta args kwargs e hp hk
    simp [validatedCall, hp, hk]

/-- Claim C7, witness: with parameter "a" declared int, supplying the string
"x" positionally makes the whole call fail with the AssertionError for "a",
even though the keyword part also contains an undeclared name that would
itself raise. -/
theorem C7_fail_fast_order_witness :
    validatedCall ⟨["a"], [("a", Ann.cls PyType.int)]⟩ [PyVal.vStr "x"]
        [("zz", PyVal.vNone)] =
      Except.error (CheckErr.validationError "a" PyType.str
        (Ann.tup [PyType.int, PyType.npInt64])) :=
  C7_fail_fast_order.2.1 ⟨["a"], [("a", Ann.cls PyType.int)]⟩ [PyVal.vStr "x"]
    [("zz", PyVal.vNone)] _ rfl

/-- Claim C8: a parameter declared typing.Any is never checked — whatever
the supplied value, positionally or as a keyword, the wrapped function runs
and its result is returned. -/
theorem C8_wildcard_skip (name : String) (v : PyVal)
    (func : List PyVal → List (String × PyVal) → PyVal) :
    callWrapped ⟨[name], [(name, Ann.anyA)]⟩ func [v] [] =
        Except.ok (func [v] []) ∧
    callWrapped ⟨[name], [(name, Ann.anyA)]⟩ func [] [(name, v)] =
        Except.ok (func [] [(name, v)]) := by
  constructor
  · by_cases h : name = "self" <;>
      simp [callWrapped, validatedCall, makeTypingsComparable, makeComparable1,
        containerOrigin, checkPositionalArgs, checkKeywordArgs, lookupHint, h]
  · simp [callWrapped, validatedCall, makeTypingsComparable, makeComparable1,
      containerOrigin, checkPositionalArgs, checkKeywordArgs, lookupHint]

/-- Claim C9: the receiver parameter is never validated — a positional
argument bound to a parameter named "self" is skipped whatever its value and
declared type, and no call whose keyword names avoid "self" (as every bound
method call does, the receiver being bound positionally) can fail validation
on "self". -/
theorem C9_receiver_never_validated :
    (∀ (v : PyVal) (args : List PyVal) (names : List String)
        (hints : List (String × Ann)),
        checkPositionalArgs (v :: args) ("self" :: names) hints =
          checkPositionalArgs args names hints) ∧
    (∀ (meta : FuncMeta) (func : List PyVal → List (String × PyVal) → PyVal)
        (args : List PyVal) (kwargs : List (String × PyVal)) (p : String)
        (t : PyType) (acc : Ann),
        (∀ q ∈ kwargs, q.1 ≠ "self") →
        callWrapped meta func args kwargs =
          Except.error (CheckErr.validationError p t acc) →
        p ≠ "self") := by
  constructor
  · intro v args names hints
    rw [checkPositionalArgs]
    simp
  · intro meta func args kwargs p t acc hkw hcall
    have hval : validatedCall meta args kwargs =
        Except.error (CheckErr.validationError p t acc) := by
      cases hv : validatedCall meta args kwargs with
      | error e =>
        unfold callWrapped at hcall
        rw [hv] at hcall
        simp only [Except.error.injEq] at hcall
        rw [hcall]
      | ok u =>
        unfold callWrapped at hcall
        rw [hv] at hcall
        exact absurd hcall (by simp)
    simp only [validatedCall] at hval
    cases hp : checkPositionalArgs args meta.argNames
        (makeTypingsComparable meta.rawHints) with
    | some e =>
      rw [hp] at hval
      simp only [Except.error.injEq] at hval
      rw [hval] at hp
      exact checkPositionalArgs_errName_ne_self args meta.argNames
        (makeTypingsComparable meta.rawHints) _ p hp rfl
    | none =>
      rw [hp] at hval
      cases hk : checkKeywordArgs kwargs (makeTypingsComparable meta.rawHints) with
      | some e =>
        rw [hk] at hval
        simp only [Except.error.injEq] at hval
        rw [hval] at hk
        have hmem := checkKeywordArgs_errName_mem kwargs
          (makeTypingsComparable meta.rawHints) _ p hk rfl
        simp only [List.mem_map] at hmem
        obtain ⟨q, hq, hqp⟩ := hmem
        rw [← hqp]
        exact hkw q hq
      | none =>
        rw [hk] at hval
        exact absurd hval (by simp)

/-- Claim C9, witness: a bound-method-shaped call — parameter list
("self", "a"), with "a" declared int and the string "x" supplied for it —
fails on "a", and the theorem yields that the failing parameter is not the
receiver. -/
theorem C9_receiver_never_validated_witness : ("a" : String) ≠ "self" :=
  C9_receiver_never_validated.2 ⟨["self", "a"], [("a", Ann.cls PyType.int)]⟩
    (fun (_ : List PyVal) (_ : List (String × PyVal)) => PyVal.vNone)
    [PyVal.vNone, PyVal.vStr "x"] [] "a" PyType.str
    (Ann.tup [PyType.int, PyType.npInt64])
    (fun q hq => absurd hq (List.not_mem_nil q)) rfl

/-- Claim C10: the positional skip keys on the literal parameter name
"self" at any position, not only position 0 — an argument bound to a
parameter named "self" anywhere in the list is exempt from validation:
replacing its value changes nothing about the outcome of the check,
whatever the declared type of that parameter. -/
theorem C10_self_skipped_any_position (args : List PyVal) (names : List String)
    (hints : List (String × Ann)) (i : Nat) (v : PyVal)
    (h : names[i]? = some "self") :
    checkPositionalArgs (args.set i v) names hints =
      checkPositionalArgs args names hints := by
  induction args generalizing i names with
  | nil => simp
  | cons a as ih =>
    cases names with
    | nil => simp at h
    | cons n ns =>
      cases i with
      | zero =>
        simp only [List.getElem?_cons_zero, Option.some.injEq] at h
        subst h
        simp only [List.set_cons_zero]
        rw [checkPositionalArgs, checkPositionalArgs]
        simp
      | succ j =>
        simp only [List.getElem?_cons_succ] at h
        simp only [List.set_cons_succ]
        rw [checkPositionalArgs, checkPositionalArgs]
        by_cases hn : n = "self"
        · simp only [hn, if_pos rfl]
          exact ih ns j h
        · simp only [if_neg hn]
          cases lookupHint hints n with
          | none => rfl
          | some acc =>
            by_cases ha : acc = Ann.anyA
            · simp only [ha, if_pos rfl]
              exact ih ns j h
            · simp only [if_neg ha]
              cases isinstanceB (typeOf a) acc with
              | none => rfl
              | some b =>
                cases b with
                | true => exact ih ns j h
                | false => rfl

/-- Claim C10, witness: a plain function with parameter list ("a", "self"),
"self" declared str at position 1 — replacing the int supplied for "self"
by None leaves the check outcome unchanged. -/
theorem C10_self_skipped_any_position_witness :
    checkPositionalArgs ([PyVal.vInt 1, PyVal.vInt 2].set 1 PyVal.vNone)
        ["a", "self"]
        [("a", Ann.tup [PyType.int]), ("self", Ann.cls PyType.str)] =
      checkPositionalArgs [PyVal.vInt 1, PyVal.vInt 2] ["a", "self"]
        [("a", Ann.tup [PyType.int]), ("self", Ann.cls PyType.str)] :=
  C10_self_skipped_any_position [PyVal.vInt 1, PyVal.vInt 2] ["a", "self"]
    [("a", Ann.tup [PyType.int]), ("self", Ann.cls PyType.str)] 1 PyVal.vNone rfl
